import Mathlib

/-!
Verification of the htclow channel multiplexer
(`src/libraries/libstratosphere/source/htclow/mux/htclow_mux.cpp`).

The multiplexer state and its operations are embedded shallowly: the
channel table is an association list in stable iteration order, the
control queue (`m_global_send_buffer`) is a FIFO list of packet headers,
machine integers are `Nat` (only equality and ordering comparisons occur,
so wrap-around never matters), and fallible operations return an explicit
result code.  External collaborators that are not part of the source file
(the packet factory, the global send buffer's `AddPacket`, the per-channel
protocol engine) are modelled from the spec, as noted on each definition.
-/

namespace HtclowMux

/-- Packet kinds of the htclow protocol (`PacketType` in the source);
any other kind is an unreachable input (`AMS_UNREACHABLE_DEFAULT_CASE`). -/
inductive PacketType where
  | Data
  | MaxData
  | Error
deriving DecidableEq, Repr

/-- Result codes returned by the multiplexer's fallible operations. -/
inductive HResult where
  | success
  | protocolError
  | channelNotExist
  | channelAlreadyExist
  | outOfMemory
deriving DecidableEq, Repr

/-- Modelled from the spec: the protocol's fixed magic value
(`HtcGen2Signature`); its numeric value is defined outside this file and
is immaterial to the properties proved — it is used only in the signature
assertion of `CheckReceivedHeader`. -/
def HtcGen2Signature : Nat := 0x48544347

/-- Modelled from the spec: `sizeof(PacketBody)`, the fixed maximum frame
body size; the exact value is defined outside this file and is immaterial
to the properties proved. -/
def MaxBodySize : Nat := 0x3E000

/-- Fixed packet header (`PacketHeader` in the source): signature,
version (u16), kind, channel identifier, body size. -/
structure PacketHeader where
  signature : Nat
  packet_type : PacketType
  version : Nat
  channel : Nat
  body_size : Nat
deriving DecidableEq, Repr

/-- A packet a channel offers for sending: header, body bytes and the
reported body size. -/
structure SendPacketInfo where
  header : PacketHeader
  body : List Nat
  bodySize : Nat
deriving DecidableEq, Repr

/-- Modelled from the spec: the per-channel protocol engine
(`ChannelImpl`) is an external collaborator; the multiplexer only calls a
fixed operation set on it.  We keep the negotiated version, the queue of
packets the channel would offer via its `QuerySendPacket`, and the result
its receive handler returns. -/
structure ChannelImpl where
  version : Nat
  sendQueue : List SendPacketInfo
  recvResult : HResult
deriving DecidableEq, Repr

/-- Modelled from the spec: the channel's `QuerySendPacket` — reports the
channel's next ready packet, if any. -/
def ChannelImpl.querySendPacket (c : ChannelImpl) : Option SendPacketInfo :=
  c.sendQueue.head?

/-- Modelled from the spec: the channel's `RemovePacket` — acknowledges
the transmitted packet, retiring the channel's front offer. -/
def ChannelImpl.removePacket (c : ChannelImpl) (_h : PacketHeader) : ChannelImpl :=
  { c with sendQueue := c.sendQueue.tail }

/-- Modelled from the spec: the fresh channel entry inserted by
`ChannelImplMap::AddChannel` before `Open` applies the current version. -/
def defaultChannel : ChannelImpl :=
  { version := 0, sendQueue := [], recvResult := HResult.success }

/-- Operational state of the multiplexer (`MuxState` in the source). -/
inductive MuxState where
  | Normal
  | Sleep
deriving DecidableEq, Repr

/-- The multiplexer state (`Mux` in the source): channel table in stable
iteration order (no duplicate ids), the control queue of bodyless packets
(`m_global_send_buffer`, FIFO), the count of `NotifySendReady` calls made
on the task manager, the manual-reset readiness event, the operational
state and the negotiated protocol version. -/
structure Mux where
  channelMap : List (Nat × ChannelImpl)
  globalSendBuffer : List PacketHeader
  taskNotifyCount : Nat
  eventSignaled : Bool
  state : MuxState
  version : Nat
deriving DecidableEq, Repr

/-- Outcome of `CheckReceivedHeader`: either the fatal signature
assertion fires, or a result code is returned. -/
inductive CheckOutcome where
  | fatal
  | res (r : HResult)
deriving DecidableEq, Repr

/-- Embedding of `Mux::CheckReceivedHeader` (the spec's `ValidateHeader`): asserts the
signature, then switches on the packet kind; `R_UNLESS(cond, ProtocolError)`
returns `ProtocolError` when `cond` fails. -/
def Mux.CheckReceivedHeader (m : Mux) (h : PacketHeader) : CheckOutcome :=
  if h.signature ≠ HtcGen2Signature then
    CheckOutcome.fatal
  else
    CheckOutcome.res <|
      match h.packet_type with
      | PacketType.Data =>
          if h.version ≠ m.version then HResult.protocolError
          else if ¬ h.body_size ≤ MaxBodySize then HResult.protocolError
          else HResult.success
      | PacketType.MaxData =>
          if h.version ≠ m.version then HResult.protocolError
          else if h.body_size ≠ 0 then HResult.protocolError
          else HResult.success
      | PacketType.Error =>
          if h.body_size ≠ 0 then HResult.protocolError
          else HResult.success

/-- Modelled from the spec: the packet factory's
`MakeErrorPacket(channel_id) -> Packet | AllocationFailure` — on success,
an Error-kind, bodyless control packet addressed to the channel; the
`alloc` flag stands for whether allocation succeeds. -/
def MakeErrorPacket (alloc : Bool) (channel : Nat) : Option PacketHeader :=
  if alloc then
    some { signature := HtcGen2Signature, packet_type := PacketType.Error,
           version := 0, channel := channel, body_size := 0 }
  else
    none

/-- Modelled from the spec: `GlobalSendBuffer::AddPacket` — enqueues the
constructed control packet at the back of the FIFO, or propagates the
allocation failure leaving the queue unchanged. -/
def addPacket (q : List PacketHeader) (p : Option PacketHeader) :
    HResult × List PacketHeader :=
  match p with
  | none => (HResult.outOfMemory, q)
  | some pkt => (HResult.success, q ++ [pkt])

/-- Embedding of `Mux::SendErrorPacket`: `R_TRY` the factory construction and enqueue
(an early return on failure, before the event is touched), then signal
the readiness event and return success. -/
def Mux.SendErrorPacket (m : Mux) (alloc : Bool) (channel : Nat) :
    HResult × Mux :=
  match addPacket m.globalSendBuffer (MakeErrorPacket alloc channel) with
  | (HResult.success, q) =>
      (HResult.success, { m with globalSendBuffer := q, eventSignaled := true })
  | (r, q) => (r, { m with globalSendBuffer := q })

/-- Embedding of `Mux::ProcessReceivePacket`: look the channel up; if present,
delegate to its receive handler and return its result verbatim; if
absent, reply with an Error control packet for Data/MaxData (the result
of `SendErrorPacket` is discarded in the source) and return
`ChannelNotExist`. -/
def Mux.ProcessReceivePacket (m : Mux) (alloc : Bool) (h : PacketHeader)
    (_body : List Nat) (_bodySize : Nat) : HResult × Mux :=
  match List.lookup h.channel m.channelMap with
  | some ch => (ch.recvResult, m)
  | none =>
      if h.packet_type = PacketType.Data ∨ h.packet_type = PacketType.MaxData then
        (HResult.channelNotExist, (m.SendErrorPacket alloc h.channel).2)
      else
        (HResult.channelNotExist, m)

/-- Embedding of `Mux::IsSendable`: Normal permits transmission, Sleep suppresses it;
the packet kind is not consulted. -/
def Mux.IsSendable (m : Mux) (_packet_type : PacketType) : Bool :=
  match m.state with
  | MuxState.Normal => true
  | MuxState.Sleep => false

/-- The channel-table scan of `Mux::QuerySendPacket`: walk the table in
its stable order until the first channel whose `QuerySendPacket` answers
yes; also record which channel ids were examined. -/
def scanChannels : List (Nat × ChannelImpl) → Option SendPacketInfo × List Nat
  | [] => (none, [])
  | (id, ch) :: rest =>
      match ch.querySendPacket with
      | some info => (some info, [id])
      | none =>
          let r := scanChannels rest
          (r.1, id :: r.2)

/-- Embedding of `Mux::QuerySendPacket`, instrumented with the list of channel ids
examined: the control queue's front packet, if any, is returned at once
with the body size forced to 0 (no channel examined); otherwise the first
channel that offers a packet decides the call, whose boolean result is
`IsSendable` of that packet's kind (`none` models returning false). -/
def Mux.QuerySendPacketEx (m : Mux) : Option (PacketHeader × Nat) × List Nat :=
  match m.globalSendBuffer.head? with
  | some pkt => (some (pkt, 0), [])
  | none =>
      match scanChannels m.channelMap with
      | (some info, examined) =>
          (if m.IsSendable info.header.packet_type then
            some (info.header, info.bodySize)
          else
            none, examined)
      | (none, examined) => (none, examined)

/-- Embedding of `Mux::QuerySendPacket`: the packet reported to the transport pump. -/
def Mux.QuerySendPacket (m : Mux) : Option (PacketHeader × Nat) :=
  m.QuerySendPacketEx.1

/-- Replace the entry for a channel id in the table. -/
def updateChannel (id : Nat) (c : ChannelImpl) :
    List (Nat × ChannelImpl) → List (Nat × ChannelImpl) :=
  List.map fun p => if p.1 = id then (p.1, c) else p

/-- Embedding of `Mux::RemovePacket`: an Error header pops the control queue; any
other kind with its channel present delegates removal to that channel;
afterwards `m_task_manager.NotifySendReady()` runs unconditionally. -/
def Mux.RemovePacket (m : Mux) (h : PacketHeader) : Mux :=
  let m1 :=
    if h.packet_type = PacketType.Error then
      { m with globalSendBuffer := m.globalSendBuffer.tail }
    else
      match List.lookup h.channel m.channelMap with
      | some ch => { m with channelMap := updateChannel h.channel (ch.removePacket h) m.channelMap }
      | none => m
  { m1 with taskNotifyCount := m1.taskNotifyCount + 1 }

/-- Embedding of `Mux::SetVersion`: set the multiplexer's version, then set every
entry of the channel table to it. -/
def Mux.SetVersion (m : Mux) (v : Nat) : Mux :=
  { m with version := v,
           channelMap := m.channelMap.map fun p => (p.1, { p.2 with version := v }) }

/-- Embedding of `Mux::Open`: fail with `ChannelAlreadyExist` if the id is present;
otherwise insert a fresh channel entry and immediately set its version to
the multiplexer's current version. -/
def Mux.Open (m : Mux) (channel : Nat) : HResult × Mux :=
  if (List.lookup channel m.channelMap).isSome then
    (HResult.channelAlreadyExist, m)
  else
    let inserted := m.channelMap ++ [(channel, defaultChannel)]
    (HResult.success,
     { m with channelMap := updateChannel channel { defaultChannel with version := m.version } inserted })

/-- Embedding of `Mux::UpdateMuxState`: query the sleep/wake detector; sleeping sets
Sleep, otherwise Normal is set and the readiness event signaled. -/
def Mux.UpdateMuxState (m : Mux) (sleeping : Bool) : Mux :=
  if sleeping then
    { m with state := MuxState.Sleep }
  else
    { m with state := MuxState.Normal, eventSignaled := true }

/-- Embedding of `Mux::CheckChannelExist`: `ChannelNotExist` if the id is absent. -/
def Mux.CheckChannelExist (m : Mux) (channel : Nat) : HResult :=
  if (List.lookup channel m.channelMap).isSome then
    HResult.success
  else
    HResult.channelNotExist

/-- The public operations of `Mux`, as named in the source. -/
inductive MuxOp where
  | setVersion
  | checkReceivedHeader
  | processReceivePacket
  | querySendPacket
  | removePacket
  | updateChannelState
  | updateMuxState
  | checkChannelExist
  | sendErrorPacket
  | isSendable
  | openChannel
  | getTaskEvent
  | setSendBuffer
  | setSendBufferWithData
  | setReceiveBuffer
deriving DecidableEq, Repr

/-- Whether the operation's body acquires the multiplexer's exclusive
mutex (`std::scoped_lock lk(m_mutex)` — RAII, so an acquiring operation
holds the lock for its entire body and releases it on every exit path);
read off the source body of each member function. -/
def acquiresLock : MuxOp → Bool
  | MuxOp.setVersion => false
  | MuxOp.checkReceivedHeader => false
  | MuxOp.processReceivePacket => true
  | MuxOp.querySendPacket => true
  | MuxOp.removePacket => true
  | MuxOp.updateChannelState => true
  | MuxOp.updateMuxState => true
  | MuxOp.checkChannelExist => false
  | MuxOp.sendErrorPacket => false
  | MuxOp.isSendable => false
  | MuxOp.openChannel => true
  | MuxOp.getTaskEvent => true
  | MuxOp.setSendBuffer => true
  | MuxOp.setSendBufferWithData => true
  | MuxOp.setReceiveBuffer => true

/-! ## Concrete states used by witnesses and counterexamples -/

/-- A Data-kind header for channel 1 at version 5 with a small body. -/
def hdrDataA : PacketHeader :=
  { signature := HtcGen2Signature, packet_type := PacketType.Data,
    version := 5, channel := 1, body_size := 2 }

/-- A ready packet offered by a channel. -/
def infoA : SendPacketInfo :=
  { header := hdrDataA, body := [10, 20], bodySize := 2 }

/-- A channel with one ready packet. -/
def chanReady : ChannelImpl :=
  { version := 5, sendQueue := [infoA], recvResult := HResult.success }

/-- A channel with nothing to send. -/
def chanIdle : ChannelImpl :=
  { version := 5, sendQueue := [], recvResult := HResult.success }

/-- A pending control (Error) packet for channel 7. -/
def hdrCtrl : PacketHeader :=
  { signature := HtcGen2Signature, packet_type := PacketType.Error,
    version := 0, channel := 7, body_size := 0 }

/-- A sleeping multiplexer with a pending control packet and a ready
channel. -/
def mSleepCtrl : Mux :=
  { channelMap := [(1, chanReady)], globalSendBuffer := [hdrCtrl],
    taskNotifyCount := 0, eventSignaled := true,
    state := MuxState.Sleep, version := 5 }

/-- A sleeping multiplexer with an empty control queue and a ready
channel. -/
def mSleepData : Mux :=
  { channelMap := [(1, chanReady)], globalSendBuffer := [],
    taskNotifyCount := 0, eventSignaled := false,
    state := MuxState.Sleep, version := 5 }

/-- A normal-state multiplexer with one ready channel and empty queues. -/
def mNormal : Mux :=
  { channelMap := [(1, chanReady)], globalSendBuffer := [],
    taskNotifyCount := 0, eventSignaled := false,
    state := MuxState.Normal, version := 5 }

/-- A normal-state multiplexer with no channels at all. -/
def mEmpty : Mux :=
  { channelMap := [], globalSendBuffer := [],
    taskNotifyCount := 0, eventSignaled := false,
    state := MuxState.Normal, version := 5 }

/-- A sleeping multiplexer whose table has an idle channel before a
ready one, with an empty control queue. -/
def mTwoChans : Mux :=
  { channelMap := [(0, chanIdle), (1, chanReady)], globalSendBuffer := [],
    taskNotifyCount := 0, eventSignaled := false,
    state := MuxState.Sleep, version := 5 }

/-- A Data-kind header addressed to a channel absent from `mEmpty`. -/
def hdrDataUnknown : PacketHeader :=
  { signature := HtcGen2Signature, packet_type := PacketType.Data,
    version := 5, channel := 9, body_size := 0 }

/-! ## Helper lemmas -/

/-- Scanning a table whose leading channels offer nothing reaches the
first ready channel and examines exactly the channels up to and
including it. -/
lemma scanChannels_first_ready (pre post : List (Nat × ChannelImpl))
    (id : Nat) (ch : ChannelImpl) (info : SendPacketInfo)
    (hpre : ∀ p ∈ pre, p.2.querySendPacket = none)
    (hch : ch.querySendPacket = some info) :
    scanChannels (pre ++ (id, ch) :: post) =
      (some info, pre.map Prod.fst ++ [id]) := by
  induction pre with
  | nil => simp [scanChannels, hch]
  | cons p rest ih =>
      have hp : p.2.querySendPacket = none := hpre p (List.mem_cons_self p rest)
      have hrest : ∀ q ∈ rest, q.2.querySendPacket = none :=
        fun q hq => hpre q (List.mem_cons_of_mem p hq)
      obtain ⟨k, c⟩ := p
      simp [scanChannels, hp, ih hrest]

/-- The version invariant that every open channel's version equals the
multiplexer's current version. -/
def VersionInv (m : Mux) : Prop :=
  ∀ p ∈ m.channelMap, p.2.version = m.version

/-- Inserting a fresh entry and then setting that entry's version to `v`
preserves the property that all entries have version `v`. -/
lemma versionInv_insert (v c : Nat) (l : List (Nat × ChannelImpl))
    (hinv : ∀ p ∈ l, p.2.version = v) :
    ∀ p ∈ updateChannel c { defaultChannel with version := v }
        (l ++ [(c, defaultChannel)]), p.2.version = v := by
  intro p hp
  rw [updateChannel, List.mem_map] at hp
  obtain ⟨q, hq, hfq⟩ := hp
  subst hfq
  by_cases hc : q.1 = c
  · simp [hc]
  · simp only [hc, if_false]
    rcases List.mem_append.mp hq with hql | hqr
    · exact hinv q hql
    · simp at hqr
      rw [hqr] at hc
      simp at hc

/-! ## Claim theorems -/

/-- C1: for every header whose signature is valid, `CheckReceivedHeader`
decides per the §4.1 matrix — Data succeeds iff the version matches the
multiplexer's and the body size is at most the maximum body size, MaxData
succeeds iff the version matches and the body size is 0, Error succeeds
iff the body size is 0 with the version not checked at all — and every
rejection returns `ProtocolError`. -/
theorem checkReceivedHeader_matrix (m : Mux) (h : PacketHeader)
    (hsig : h.signature = HtcGen2Signature) :
    (h.packet_type = PacketType.Data →
      (m.CheckReceivedHeader h = CheckOutcome.res HResult.success ↔
        h.version = m.version ∧ h.body_size ≤ MaxBodySize)) ∧
    (h.packet_type = PacketType.MaxData →
      (m.CheckReceivedHeader h = CheckOutcome.res HResult.success ↔
        h.version = m.version ∧ h.body_size = 0)) ∧
    (h.packet_type = PacketType.Error →
      (m.CheckReceivedHeader h = CheckOutcome.res HResult.success ↔
        h.body_size = 0)) ∧
    (m.CheckReceivedHeader h = CheckOutcome.res HResult.success ∨
      m.CheckReceivedHeader h = CheckOutcome.res HResult.protocolError) := by
  obtain ⟨sig, pt, ver, chn, bs⟩ := h
  simp only at hsig
  subst hsig
  cases pt <;> simp [Mux.CheckReceivedHeader] <;>
    first
      | (split_ifs <;> simp_all)
      | exact eq_or_ne bs 0

/-- Witness for C1 at a concrete multiplexer and Data header. -/
theorem checkReceivedHeader_matrix_witness :
    hdrDataA.signature = HtcGen2Signature ∧
    ((hdrDataA.packet_type = PacketType.Data →
      (mNormal.CheckReceivedHeader hdrDataA = CheckOutcome.res HResult.success ↔
        hdrDataA.version = mNormal.version ∧ hdrDataA.body_size ≤ MaxBodySize)) ∧
    (hdrDataA.packet_type = PacketType.MaxData →
      (mNormal.CheckReceivedHeader hdrDataA = CheckOutcome.res HResult.success ↔
        hdrDataA.version = mNormal.version ∧ hdrDataA.body_size = 0)) ∧
    (hdrDataA.packet_type = PacketType.Error →
      (mNormal.CheckReceivedHeader hdrDataA = CheckOutcome.res HResult.success ↔
        hdrDataA.body_size = 0)) ∧
    (mNormal.CheckReceivedHeader hdrDataA = CheckOutcome.res HResult.success ∨
      mNormal.CheckReceivedHeader hdrDataA = CheckOutcome.res HResult.protocolError)) :=
  ⟨rfl, checkReceivedHeader_matrix mNormal hdrDataA rfl⟩

/-- C2: whenever the control queue is non-empty, `QuerySendPacket`
returns its front packet with the reported body size forced to 0,
examines no channel, and therefore never returns a channel's data packet
regardless of the channel table's contents. -/
theorem querySendPacket_control_precedes (m : Mux) (pkt : PacketHeader)
    (rest : List PacketHeader) (hq : m.globalSendBuffer = pkt :: rest) :
    m.QuerySendPacketEx = (some (pkt, 0), []) := by
  simp [Mux.QuerySendPacketEx, hq]

/-- Witness for C2 at a concrete multiplexer with a queued control
packet and a data-ready channel. -/
theorem querySendPacket_control_precedes_witness :
    mSleepCtrl.globalSendBuffer = hdrCtrl :: [] ∧
    mSleepCtrl.QuerySendPacketEx = (some (hdrCtrl, 0), []) :=
  ⟨rfl, querySendPacket_control_precedes mSleepCtrl hdrCtrl [] rfl⟩

/-- C3 counterexample: in Sleep state with a pending control packet,
`QuerySendPacket` still reports that control packet as sendable — it
does not report nothing to send for every packet kind. -/
theorem querySendPacket_sleep_cex :
    mSleepCtrl.state = MuxState.Sleep ∧
    mSleepCtrl.QuerySendPacket = some (hdrCtrl, 0) :=
  ⟨rfl, rfl⟩

/-- C3 as amended: in Sleep with an empty control queue,
`QuerySendPacket` reports nothing to send even when a channel has data
ready; the wake transition leaves the queue and table untouched, and the
same ready packet is reported sendable again after the state returns to
Normal. -/
theorem querySendPacket_sleep_gating (m : Mux)
    (hs : m.state = MuxState.Sleep) (hq : m.globalSendBuffer = []) :
    m.QuerySendPacket = none ∧
    (m.UpdateMuxState false).globalSendBuffer = m.globalSendBuffer ∧
    (m.UpdateMuxState false).channelMap = m.channelMap ∧
    ∀ info examined, scanChannels m.channelMap = (some info, examined) →
      (m.UpdateMuxState false).QuerySendPacket =
        some (info.header, info.bodySize) := by
  refine ⟨?_, rfl, rfl, ?_⟩
  · rw [Mux.QuerySendPacket, Mux.QuerySendPacketEx]
    cases hsc : scanChannels m.channelMap with
    | mk o ex => cases o <;> simp [hq, hsc, Mux.IsSendable, hs]
  · intro info examined hscan
    rw [Mux.QuerySendPacket, Mux.QuerySendPacketEx]
    simp [Mux.UpdateMuxState, hq, hscan, Mux.IsSendable]

/-- Witness for C3's amended statement at a concrete sleeping
multiplexer with one data-ready channel. -/
theorem querySendPacket_sleep_gating_witness :
    mSleepData.state = MuxState.Sleep ∧ mSleepData.globalSendBuffer = [] ∧
    mSleepData.QuerySendPacket = none ∧
    (mSleepData.UpdateMuxState false).QuerySendPacket =
      some (infoA.header, infoA.bodySize) := by
  have h := querySendPacket_sleep_gating mSleepData rfl rfl
  exact ⟨rfl, rfl, h.1, h.2.2.2 infoA [1] rfl⟩

/-- C5: with the control queue empty, the channel-table scan stops at the
first channel in stable order that offers a packet; the overall result is
`IsSendable` applied to that packet's kind, and exactly the channels up
to and including the first ready one are examined — no later channel is
looked at even when the result is suppressed to nothing. -/
theorem querySendPacket_first_match (m : Mux)
    (pre post : List (Nat × ChannelImpl)) (id : Nat) (ch : ChannelImpl)
    (info : SendPacketInfo)
    (hq : m.globalSendBuffer = [])
    (hmap : m.channelMap = pre ++ (id, ch) :: post)
    (hpre : ∀ p ∈ pre, p.2.querySendPacket = none)
    (hch : ch.querySendPacket = some info) :
    m.QuerySendPacketEx =
      ((if m.IsSendable info.header.packet_type then
          some (info.header, info.bodySize)
        else
          none), pre.map Prod.fst ++ [id]) := by
  rw [Mux.QuerySendPacketEx, hq, hmap,
    scanChannels_first_ready pre post id ch info hpre hch]
  rfl

/-- Witness for C5 at a concrete sleeping multiplexer whose table has an
idle channel before a ready one: the scan stops at the ready channel,
the suppressed result is nothing, and the trailing table is never
examined. -/
theorem querySendPacket_first_match_witness :
    mTwoChans.globalSendBuffer = [] ∧
    mTwoChans.channelMap = [(0, chanIdle)] ++ (1, chanReady) :: [] ∧
    (∀ p ∈ [(0, chanIdle)], p.2.querySendPacket = none) ∧
    chanReady.querySendPacket = some infoA ∧
    mTwoChans.QuerySendPacketEx =
      ((if mTwoChans.IsSendable infoA.header.packet_type then
          some (infoA.header, infoA.bodySize)
        else
          none), [(0, chanIdle)].map Prod.fst ++ [1]) := by
  have h := querySendPacket_first_match mTwoChans [(0, chanIdle)] []
    1 chanReady infoA rfl rfl (by decide) rfl
  exact ⟨rfl, rfl, by decide, rfl, h⟩

/-- C4: for an inbound packet whose channel id is not in the table, a
Data or MaxData kind makes `ProcessReceivePacket` (with the factory
allocation succeeding) enqueue exactly one Error control packet
addressed to that channel id at the back of the control queue and return
`ChannelNotExist`; an Error kind enqueues nothing and returns
`ChannelNotExist`. -/
theorem processReceivePacket_unknown_channel (m : Mux) (h : PacketHeader)
    (body : List Nat) (n : Nat) (alloc : Bool)
    (habs : List.lookup h.channel m.channelMap = none) :
    ((h.packet_type = PacketType.Data ∨ h.packet_type = PacketType.MaxData) →
      (m.ProcessReceivePacket true h body n).1 = HResult.channelNotExist ∧
      (m.ProcessReceivePacket true h body n).2.globalSendBuffer =
        m.globalSendBuffer ++
          [{ signature := HtcGen2Signature, packet_type := PacketType.Error,
             version := 0, channel := h.channel, body_size := 0 }]) ∧
    (h.packet_type = PacketType.Error →
      (m.ProcessReceivePacket alloc h body n).1 = HResult.channelNotExist ∧
      (m.ProcessReceivePacket alloc h body n).2.globalSendBuffer =
        m.globalSendBuffer) := by
  constructor
  · intro hk
    rw [Mux.ProcessReceivePacket]
    simp [habs, hk, Mux.SendErrorPacket, MakeErrorPacket, addPacket]
  · intro hk
    have hnk : ¬ (h.packet_type = PacketType.Data ∨
        h.packet_type = PacketType.MaxData) := by
      rw [hk]
      intro hc
      rcases hc with hc | hc <;> exact PacketType.noConfusion hc
    rw [Mux.ProcessReceivePacket]
    simp [habs, hnk]

/-- Witness for C4 at an empty channel table: a Data packet for an
unknown channel id yields `ChannelNotExist` and exactly one enqueued
Error packet addressed to that id. -/
theorem processReceivePacket_unknown_channel_witness :
    List.lookup hdrDataUnknown.channel mEmpty.channelMap = none ∧
    (hdrDataUnknown.packet_type = PacketType.Data ∨
      hdrDataUnknown.packet_type = PacketType.MaxData) ∧
    (mEmpty.ProcessReceivePacket true hdrDataUnknown [] 0).1 =
      HResult.channelNotExist ∧
    (mEmpty.ProcessReceivePacket true hdrDataUnknown [] 0).2.globalSendBuffer =
      mEmpty.globalSendBuffer ++
        [{ signature := HtcGen2Signature, packet_type := PacketType.Error,
           version := 0, channel := hdrDataUnknown.channel, body_size := 0 }] := by
  have h := processReceivePacket_unknown_channel mEmpty hdrDataUnknown [] 0 true rfl
  have h2 := h.1 (Or.inl rfl)
  exact ⟨rfl, Or.inl rfl, h2.1, h2.2⟩

/-- C6: every `RemovePacket` call bumps the task registry's send-ready
notification count by exactly one, whichever branch runs; an Error
header pops the control queue, and with the channel absent and a
non-Error kind nothing but the notification happens. -/
theorem removePacket_notifies_once (m : Mux) (h : PacketHeader) :
    (m.RemovePacket h).taskNotifyCount = m.taskNotifyCount + 1 ∧
    (h.packet_type = PacketType.Error →
      (m.RemovePacket h).globalSendBuffer = m.globalSendBuffer.tail) ∧
    (h.packet_type ≠ PacketType.Error →
      List.lookup h.channel m.channelMap = none →
      (m.RemovePacket h).globalSendBuffer = m.globalSendBuffer ∧
      (m.RemovePacket h).channelMap = m.channelMap) := by
  refine ⟨?_, ?_, ?_⟩
  · rw [Mux.RemovePacket]
    by_cases he : h.packet_type = PacketType.Error
    · simp [he]
    · simp only [he, if_false]
      cases List.lookup h.channel m.channelMap <;> simp
  · intro he
    rw [Mux.RemovePacket]
    simp [he]
  · intro he habs
    rw [Mux.RemovePacket]
    simp [he, habs]

/-- Witness for C6 at a concrete multiplexer retiring the queued control
packet. -/
theorem removePacket_notifies_once_witness :
    (mSleepCtrl.RemovePacket hdrCtrl).taskNotifyCount =
      mSleepCtrl.taskNotifyCount + 1 ∧
    (mSleepCtrl.RemovePacket hdrCtrl).globalSendBuffer =
      mSleepCtrl.globalSendBuffer.tail := by
  have h := removePacket_notifies_once mSleepCtrl hdrCtrl
  exact ⟨h.1, h.2.1 rfl⟩

/-- C7: after `SetVersion v` the multiplexer's version is `v` and every
channel in the table has version `v`; and `Open` preserves the invariant
that every open channel's version equals the multiplexer's current
version, since it applies that version to the new entry at insertion. -/
theorem version_propagation (m : Mux) (v : Nat) (c : Nat) :
    ((m.SetVersion v).version = v ∧
      ∀ p ∈ (m.SetVersion v).channelMap, p.2.version = v) ∧
    (VersionInv m → VersionInv (m.Open c).2) := by
  constructor
  · refine ⟨rfl, ?_⟩
    intro p hp
    rw [Mux.SetVersion] at hp
    simp only [List.mem_map] at hp
    obtain ⟨q, _, hfq⟩ := hp
    rw [← hfq]
  · intro hinv
    rw [Mux.Open]
    by_cases hex : (List.lookup c m.channelMap).isSome
    · simp only [hex, if_true]
      exact hinv
    · simp only [hex, if_false]
      intro p hp
      exact versionInv_insert m.version c m.channelMap hinv p hp

/-- Witness for C7 at a concrete multiplexer: setting version 9 updates
the open channel, and opening channel 2 keeps the invariant. -/
theorem version_propagation_witness :
    ((mNormal.SetVersion 9).version = 9 ∧
      ∀ p ∈ (mNormal.SetVersion 9).channelMap, p.2.version = 9) ∧
    (VersionInv mNormal ∧ VersionInv (mNormal.Open 2).2) := by
  have hinv : VersionInv mNormal := by
    intro p hp
    fin_cases hp
    rfl
  have h := version_propagation mNormal 9 2
  exact ⟨h.1, hinv, h.2 hinv⟩

/-- C8 counterexample: with the factory failing, `SendErrorPacket` would
report the allocation failure, yet `ProcessReceivePacket`'s automatic
Error reply for an unknown channel returns `ChannelNotExist` — the
failure is discarded, not surfaced. -/
theorem errorPacket_failure_cex :
    (mEmpty.SendErrorPacket false 9).1 = HResult.outOfMemory ∧
    (mEmpty.ProcessReceivePacket false hdrDataUnknown [] 0).1 =
      HResult.channelNotExist ∧
    (mEmpty.ProcessReceivePacket false hdrDataUnknown [] 0).1 ≠
      HResult.outOfMemory := by
  refine ⟨rfl, rfl, ?_⟩
  intro hc
  exact HResult.noConfusion hc

/-- C8 as amended: `SendErrorPacket` itself propagates the factory's
allocation failure (and succeeds when allocation does), but
`ProcessReceivePacket`'s automatic Error reply for an unknown channel
discards that failure and returns `ChannelNotExist` whatever the factory
did. -/
theorem errorPacket_failure_propagation (m : Mux) (h : PacketHeader)
    (body : List Nat) (n : Nat) (ch : Nat)
    (habs : List.lookup h.channel m.channelMap = none)
    (hk : h.packet_type = PacketType.Data ∨
      h.packet_type = PacketType.MaxData) :
    (m.SendErrorPacket false ch).1 = HResult.outOfMemory ∧
    (m.SendErrorPacket true ch).1 = HResult.success ∧
    ∀ alloc, (m.ProcessReceivePacket alloc h body n).1 =
      HResult.channelNotExist := by
  refine ⟨rfl, rfl, ?_⟩
  intro alloc
  rw [Mux.ProcessReceivePacket]
  simp [habs, hk]

/-- Witness for C8's amended statement at the empty channel table. -/
theorem errorPacket_failure_propagation_witness :
    List.lookup hdrDataUnknown.channel mEmpty.channelMap = none ∧
    (hdrDataUnknown.packet_type = PacketType.Data ∨
      hdrDataUnknown.packet_type = PacketType.MaxData) ∧
    (mEmpty.SendErrorPacket false 9).1 = HResult.outOfMemory ∧
    (mEmpty.SendErrorPacket true 9).1 = HResult.success ∧
    (mEmpty.ProcessReceivePacket false hdrDataUnknown [] 0).1 =
      HResult.channelNotExist := by
  have h := errorPacket_failure_propagation mEmpty hdrDataUnknown [] 0 9
    rfl (Or.inl rfl)
  exact ⟨rfl, Or.inl rfl, h.1, h.2.1, h.2.2 false⟩

/-- C9 counterexample: `SetVersion`, `CheckChannelExist` and
`SendErrorPacket` do not acquire the multiplexer's exclusive mutex in
their bodies, so not every public operation holds the lock. -/
theorem lock_discipline_cex :
    acquiresLock MuxOp.setVersion = false ∧
    acquiresLock MuxOp.checkChannelExist = false ∧
    acquiresLock MuxOp.sendErrorPacket = false :=
  ⟨rfl, rfl, rfl⟩

/-- C9 as amended: every public operation except `SetVersion`,
`CheckChannelExist`, `SendErrorPacket` and the read-only
`CheckReceivedHeader` and `IsSendable` acquires the exclusive lock for
its entire body (RAII scoped lock, released on every exit path); those
five do not acquire it themselves. -/
theorem lock_discipline (op : MuxOp) :
    acquiresLock op =
      !([MuxOp.setVersion, MuxOp.checkReceivedHeader,
         MuxOp.checkChannelExist, MuxOp.sendErrorPacket,
         MuxOp.isSendable].contains op) := by
  cases op <;> rfl

/-- C10: `SendErrorPacket` is atomic on error — a factory failure is
returned with the multiplexer state (control queue and readiness signal
included) completely unchanged, while on success the Error packet is
enqueued and only then is the readiness signal set. -/
theorem sendErrorPacket_atomic (m : Mux) (ch : Nat) :
    ((m.SendErrorPacket false ch).1 = HResult.outOfMemory ∧
      (m.SendErrorPacket false ch).2 = m) ∧
    ((m.SendErrorPacket true ch).1 = HResult.success ∧
      (m.SendErrorPacket true ch).2.eventSignaled = true ∧
      (m.SendErrorPacket true ch).2.globalSendBuffer =
        m.globalSendBuffer ++
          [{ signature := HtcGen2Signature, packet_type := PacketType.Error,
             version := 0, channel := ch, body_size := 0 }]) :=
  ⟨⟨rfl, rfl⟩, rfl, rfl, rfl⟩

end HtclowMux
